import Mathlib

/-!
# Verification of the edw-crdp course-planning engine

Shallow embedding of the constraint-based course scheduler
(`src/cpsat.py`, class `CoursePlanner`) and its data access layer
(`src/data/data_loader.py`, class `DataLoader`).

Python booleans become `Bool`, course codes and slot codes become `String`,
semester numbers and credits become `Nat`, and each `model.add(...)` call of
the CP-SAT constraint compiler becomes one conjunct of a satisfaction
predicate over an assignment `x : String → Nat → Bool` (the boolean decision
variables keyed by (course, semester)).  The external CP-SAT solver is
modelled as an oracle: any function that, when it reports success, returns an
assignment satisfying every emitted constraint.
-/

/-! ## Fixed constants (src/cpsat.py lines 12-16) -/

def MIN_CREDITS : Nat := 16

def MAX_CREDITS : Nat := 25

def TOTAL_MIN_CREDITS_FOR_GRAD_FROM_SEM_ONE : Nat := 160

def TOTAL_SEMS : Nat := 8

def MAX_ALLOWED_COURSES_PER_SEM : Nat := 12

/-! ## Slot compatibility (src/data/data_loader.py) -/

/-- Method `DataLoader.do_slots_conflict` (data_loader.py lines 298-304): two slot
codes conflict exactly when both are nonempty strings with the same leading
character; if either string is empty the function returns `False`. -/
def do_slots_conflict (slot1 slot2 : String) : Bool :=
  match slot1.toList, slot2.toList with
  | c1 :: _, c2 :: _ => c1 == c2
  | _, _ => false

/-- Method `DataLoader.can_take_together` (data_loader.py lines 325-335): two courses
are compatible when at least one pair of slots drawn from their slot sets does
not conflict.  `slotsOf` stands for `self.course_to_slots` lookups via
`get_course_slots`. -/
def can_take_together (slotsOf : String → List String) (c1 c2 : String) : Bool :=
  (slotsOf c1).any fun s1 => (slotsOf c2).any fun s2 => !(do_slots_conflict s1 s2)

/-- The compatibility relation exactly as claim C10 words it: there exist
slots `s1`, `s2` in the two courses' slot sets whose leading characters
differ (so both slots must actually have a leading character). -/
def can_take_together_claim (slotsOf : String → List String) (c1 c2 : String) : Bool :=
  (slotsOf c1).any fun s1 => (slotsOf c2).any fun s2 =>
    match s1.toList, s2.toList with
    | a :: _, b :: _ => a != b
    | _, _ => false

/-- Slot table witnessing the difference between `can_take_together` and the
claim's characterization: course "P" offers only the empty-string slot,
course "Q" offers slot "A1". -/
def emptySlotTable : String → List String :=
  fun c => if c = "P" then [""] else if c = "Q" then ["A1"] else []

theorem do_slots_conflict_nil_left (s1 s2 : String) (h : s1.toList = []) :
    do_slots_conflict s1 s2 = false := by
  unfold do_slots_conflict
  rw [h]

theorem do_slots_conflict_nil_right (s1 s2 : String) (h : s2.toList = []) :
    do_slots_conflict s1 s2 = false := by
  unfold do_slots_conflict
  rw [h]
  cases hx : s1.toList <;> rfl

theorem do_slots_conflict_cons (s1 s2 : String) {a b : Char} {t1 t2 : List Char}
    (h1 : s1.toList = a :: t1) (h2 : s2.toList = b :: t2) :
    do_slots_conflict s1 s2 = (a == b) := by
  unfold do_slots_conflict
  rw [h1, h2]

theorem char_beq_comm (a b : Char) : (a == b) = (b == a) := by
  by_cases h : a = b
  · subst h; rfl
  · rw [beq_eq_false_iff_ne.mpr h, beq_eq_false_iff_ne.mpr (Ne.symm h)]

theorem string_eq_empty_of_toList_nil {s : String} (h : s.toList = []) : s = "" := by
  cases s with
  | mk data =>
    cases data with
    | nil => rfl
    | cons a t =>
      have hx : String.toList (String.mk (a :: t)) = a :: t := rfl
      rw [hx] at h
      exact absurd h (List.cons_ne_nil a t)

theorem do_slots_conflict_symm (s1 s2 : String) :
    do_slots_conflict s1 s2 = do_slots_conflict s2 s1 := by
  rcases h1 : s1.toList with _ | ⟨a, t1⟩ <;> rcases h2 : s2.toList with _ | ⟨b, t2⟩
  · rw [do_slots_conflict_nil_left s1 s2 h1, do_slots_conflict_nil_left s2 s1 h2]
  · rw [do_slots_conflict_nil_left s1 s2 h1, do_slots_conflict_nil_right s2 s1 h1]
  · rw [do_slots_conflict_nil_right s1 s2 h2, do_slots_conflict_nil_left s2 s1 h2]
  · rw [do_slots_conflict_cons s1 s2 h1 h2, do_slots_conflict_cons s2 s1 h2 h1,
      char_beq_comm]

theorem can_take_together_eq_true_iff (slotsOf : String → List String) (c1 c2 : String) :
    can_take_together slotsOf c1 c2 = true ↔
      ∃ s1 ∈ slotsOf c1, ∃ s2 ∈ slotsOf c2, do_slots_conflict s1 s2 = false := by
  unfold can_take_together
  simp only [List.any_eq_true, Bool.not_eq_true']

theorem can_take_together_symm (slotsOf : String → List String) (c1 c2 : String) :
    can_take_together slotsOf c1 c2 = can_take_together slotsOf c2 c1 := by
  rw [Bool.eq_iff_iff, can_take_together_eq_true_iff, can_take_together_eq_true_iff]
  constructor
  · rintro ⟨s1, h1, s2, h2, hc⟩
    exact ⟨s2, h2, s1, h1, by rw [do_slots_conflict_symm]; exact hc⟩
  · rintro ⟨s2, h2, s1, h1, hc⟩
    exact ⟨s1, h1, s2, h2, by rw [do_slots_conflict_symm]; exact hc⟩

/-- Claim C10, counterexample: with a course whose only slot is the empty
string, `can_take_together` returns `True` (empty slots never conflict in
`do_slots_conflict`) although no pair of slots has differing leading
characters, so the claimed if-and-only-if characterization fails. -/
theorem can_take_together_claim_counterexample :
    can_take_together emptySlotTable "P" "Q" = true ∧
    can_take_together_claim emptySlotTable "P" "Q" = false := by
  constructor <;> rfl

/-- Claim C10 (amended): `can_take_together(c1, c2)` returns `True` iff there
exist a slot `s1` of `c1` and a slot `s2` of `c2` such that `s1` is empty, or
`s2` is empty, or their leading characters differ; in particular a course
with an empty slot *set* is incompatible with every other course. -/
theorem can_take_together_characterization (slotsOf : String → List String)
    (c1 c2 : String) :
    (can_take_together slotsOf c1 c2 = true ↔
      ∃ s1 ∈ slotsOf c1, ∃ s2 ∈ slotsOf c2,
        s1 = "" ∨ s2 = "" ∨ s1.toList.head? ≠ s2.toList.head?) ∧
    (slotsOf c1 = [] → ∀ c, can_take_together slotsOf c1 c = false) := by
  constructor
  · unfold can_take_together
    simp only [List.any_eq_true, Bool.not_eq_true']
    constructor
    · rintro ⟨s1, h1, s2, h2, hc⟩
      refine ⟨s1, h1, s2, h2, ?_⟩
      rcases hs1 : s1.toList with _ | ⟨a, t1⟩
      · exact Or.inl (string_eq_empty_of_toList_nil hs1)
      · rcases hs2 : s2.toList with _ | ⟨b, t2⟩
        · exact Or.inr (Or.inl (string_eq_empty_of_toList_nil hs2))
        · right; right
          rw [do_slots_conflict_cons s1 s2 hs1 hs2] at hc
          rw [beq_eq_false_iff_ne] at hc
          simp only [hs1, hs2, List.head?_cons, ne_eq, Option.some.injEq]
          exact hc
    · rintro ⟨s1, h1, s2, h2, hc⟩
      refine ⟨s1, h1, s2, h2, ?_⟩
      rcases hc with hc | hc | hc
      · subst hc
        exact do_slots_conflict_nil_left _ s2 rfl
      · subst hc
        exact do_slots_conflict_nil_right s1 _ rfl
      · rcases hs1 : s1.toList with _ | ⟨a, t1⟩
        · exact do_slots_conflict_nil_left s1 s2 hs1
        · rcases hs2 : s2.toList with _ | ⟨b, t2⟩
          · exact do_slots_conflict_nil_right s1 s2 hs2
          · rw [do_slots_conflict_cons s1 s2 hs1 hs2, beq_eq_false_iff_ne]
            rw [hs1, hs2] at hc
            simp only [List.head?_cons, ne_eq, Option.some.injEq] at hc
            exact hc
  · intro h c
    unfold can_take_together
    simp [h]

/-! ## Data model

`Loader` collects the fields of `DataLoader` that the constraint compiler
reads (all lookups are total functions carrying the Python `.get` defaults:
`get_credits` defaults to 0, `course_type` to the empty string,
`year_offered` to its caller's default, `theory_to_lab.get` to `none`).
`Student` collects the fields of `StudentProfile` used for hard
constraints. -/

structure Loader where
  allCourses : List String
  credits : String → Nat
  courseType : String → String
  prereqsOf : String → List String
  slotsOf : String → List String
  labOf : String → Option String
  yearOffered : String → Nat
  creditRequirements : List (String × Nat)

structure Student where
  completed : List String
  failed : List String
  currentSemester : Nat

/-- From `generate_complete_plan` line 357: `remaining_semesters =
list(range(student.current_semester, 9))`. -/
def remainingSemesters (currentSemester : Nat) : List Nat :=
  List.range' currentSemester (9 - currentSemester)

/-- Method `get_eligible_and_failed_courses` (cpsat.py lines 422-434): every catalog
course not in the completed set is eligible. -/
def eligibleCourses (L : Loader) (st : Student) : List String :=
  L.allCourses.filter fun c => !(st.completed.contains c)

/-- Number of semesters of `sems` to which the assignment sends course `c`,
mirroring `sum(x[course, sem] for sem in semesters)` over boolean
variables. -/
def assignCount (x : String → Nat → Bool) (c : String) (sems : List Nat) : Nat :=
  (sems.map fun s => if x c s then 1 else 0).sum

/-- Credits assigned to semester `sem`, mirroring
`sum(self.loader.get_credits(c) * x[c, sem] for c in courses)`. -/
def semCredits (L : Loader) (x : String → Nat → Bool) (courses : List String)
    (sem : Nat) : Nat :=
  (courses.map fun c => L.credits c * (if x c sem then 1 else 0)).sum

/-- Number of courses assigned to semester `sem`, mirroring
`sum(x[c, sem] for c in courses)`. -/
def semCourseCount (x : String → Nat → Bool) (courses : List String) (sem : Nat) : Nat :=
  (courses.map fun c => if x c sem then 1 else 0).sum

/-! ## Hard constraint compiler (cpsat.py lines 444-623)

Each `add_*` method is rendered as the proposition "every constraint the
method emits into the CP-SAT model holds of the assignment `x`". -/

/-- cpsat.py lines 444-446. -/
def add_course_can_be_taken_only_once_constraint (x : String → Nat → Bool)
    (courses : List String) (sems : List Nat) : Prop :=
  ∀ c ∈ courses, assignCount x c sems ≤ 1

/-- cpsat.py lines 448-453. -/
def add_course_already_completed_constraint (completed : List String)
    (x : String → Nat → Bool) (courses : List String) (sems : List Nat) : Prop :=
  ∀ c ∈ courses, c ∈ completed → ∀ s ∈ sems, x c s = false

/-- The semesters strictly before `sem`: `[s for s in semesters if s < sem]`. -/
def pastSems (sems : List Nat) (sem : Nat) : List Nat :=
  sems.filter fun s => s < sem

/-- cpsat.py lines 455-483.  For every course, semester and prerequisite not
already completed: if the prerequisite is absent from the eligible pool the
method emits `model.add(1 == 0)` (an unsatisfiable constraint, rendered
`False`); otherwise, with no earlier semester available the course is fixed
to 0 there, and with earlier semesters available the course may be assigned
only if the prerequisite is assigned to some strictly earlier semester. -/
def add_preq_check_constraint (L : Loader) (completed : List String)
    (x : String → Nat → Bool) (courses : List String) (sems : List Nat) : Prop :=
  ∀ c ∈ courses, ∀ s ∈ sems, ∀ p ∈ L.prereqsOf c, p ∉ completed →
    if p ∈ courses then
      (pastSems sems s = [] → x c s = false) ∧
      (pastSems sems s ≠ [] →
        (if x c s then 1 else 0) ≤ assignCount x p (pastSems sems s))
    else False

/-- cpsat.py lines 485-494. -/
def add_min_max_credit_constraint (L : Loader) (x : String → Nat → Bool)
    (courses : List String) (sems : List Nat) : Prop :=
  ∀ sem ∈ sems,
    MIN_CREDITS ≤ semCredits L x courses sem ∧ semCredits L x courses sem ≤ MAX_CREDITS

/-- cpsat.py lines 496-503.  The `for sem in semesters` loop body ends in an
unconditional `break`, so the pairwise mutual-exclusion constraints are
emitted for the FIRST candidate semester only; for every later ordered pair
`(c1, c2)` of the course list with no compatible slot combination,
`x[c1, sem] + x[c2, sem] <= 1` is added for that one semester. -/
def add_slot_conflict_constraint (L : Loader) (x : String → Nat → Bool)
    (courses : List String) (sems : List Nat) : Prop :=
  ∀ sem ∈ sems.take 1,
    courses.Pairwise fun c1 c2 =>
      can_take_together L.slotsOf c1 c2 = false →
        (if x c1 sem then 1 else 0) + (if x c2 sem then 1 else 0) ≤ 1

/-- cpsat.py lines 505-512: theory and lab variables are forced equal in
every semester whenever the theory course has a lab that is in the eligible
pool and not completed. -/
def add_theory_lab_pairing_constraint (L : Loader) (completed : List String)
    (x : String → Nat → Bool) (courses : List String) (sems : List Nat) : Prop :=
  ∀ c ∈ courses, ∀ lab ∈ (L.labOf c).toList,
    lab ∈ courses → lab ∉ completed → ∀ s ∈ sems, x c s = x lab s

/-- Map `earned_by_category` (cpsat.py lines 515-522): credits of completed
courses present in the catalog, summed per category.  `set(...)` in the
source de-duplicates the completed list. -/
def earnedByCategory (L : Loader) (completed : List String) (category : String) : Nat :=
  ((completed.dedup.filter fun c =>
      L.allCourses.contains c && L.courseType c == category).map L.credits).sum

/-- cpsat.py lines 531-537: the eligible courses counted toward a category;
the pseudo-category "Combined Elective" pools three elective types. -/
def categoryCourses (L : Loader) (courses : List String) (category : String) :
    List String :=
  if category = "Combined Elective" then
    courses.filter fun c =>
      ["Discipline Elective", "Open Elective", "Multidisciplinary Elective"].contains
        (L.courseType c)
  else
    courses.filter fun c => L.courseType c == category

/-- Sum `sum(get_credits(c) * x[c, sem] for c in category_courses for sem in
semesters)` (cpsat.py lines 545-549). -/
def categoryFutureCredits (L : Loader) (x : String → Nat → Bool)
    (categoryCourseList : List String) (sems : List Nat) : Nat :=
  (categoryCourseList.map fun c =>
    (sems.map fun s => L.credits c * (if x c s then 1 else 0)).sum).sum

/-- cpsat.py lines 514-551, constraint side: for each category whose quota is
not already met, either no eligible course of the category exists — the
method then emits the permanent contradiction `model.add(1 == 0)`, rendered
`False` — or future plus earned credits must reach the quota. -/
def add_category_credit_requirement_constraint (L : Loader) (completed : List String)
    (x : String → Nat → Bool) (courses : List String) (sems : List Nat) : Prop :=
  ∀ p ∈ L.creditRequirements,
    earnedByCategory L completed p.1 < p.2 →
      if categoryCourses L courses p.1 = [] then False
      else
        p.2 ≤ categoryFutureCredits L x (categoryCourses L courses p.1) sems +
          earnedByCategory L completed p.1

/-- cpsat.py lines 514-543, report side: the categories for which the
compiler prints `"Cannot meet {category} requirement!"` (naming the
category) and records the shortfall while emitting the permanent
contradiction — the data-integrity reports of claim C2.  A pure function of
loader and student data, independent of any solver. -/
def categoryIntegrityReports (L : Loader) (completed : List String)
    (courses : List String) : List String :=
  (L.creditRequirements.filter fun p =>
    decide (earnedByCategory L completed p.1 < p.2) &&
      decide (categoryCourses L courses p.1 = [])).map Prod.fst

/-- cpsat.py lines 553-578: courses of category "Projects and Internship"
are pinned — `BCSE497J` to semester 7, `BCSE498J` and `BCSE499J` to
semester 8, each forbidden in every other candidate semester, and every
other course of the category forbidden before semester 7. -/
def add_project_constraint (L : Loader) (x : String → Nat → Bool)
    (courses : List String) (sems : List Nat) : Prop :=
  ∀ c ∈ courses.filter fun c => L.courseType c == "Projects and Internship",
    ∀ s ∈ sems,
      if c = "BCSE497J" then
        (if s = 7 then x c s = true else x c s = false)
      else if c = "BCSE498J" ∨ c = "BCSE499J" then
        (if s = 8 then x c s = true else x c s = false)
      else
        (s < 7 → x c s = false)

/-- cpsat.py lines 580-582: every failed course's variables sum to exactly
one over the remaining semesters.  The first conjunct records that the
lookup `x[c, s]` only succeeds for courses with decision variables, i.e.
eligible courses — a failed course outside the pool raises a `KeyError`
before any model is solved. -/
def add_failed_courses_retake_constraint (x : String → Nat → Bool)
    (failed : List String) (courses : List String) (sems : List Nat) : Prop :=
  ∀ c ∈ failed, c ∈ courses ∧ assignCount x c sems = 1

/-- Value `round(sum(get_credits(c) for c in completed))` (cpsat.py line 586); the
completed list is used as-is here, without the set de-duplication. -/
def creditsEarnedSoFar (L : Loader) (completed : List String) : Nat :=
  (completed.map L.credits).sum

/-- cpsat.py lines 584-595: total planned credits must reach
`TOTAL_MIN_CREDITS_FOR_GRAD_FROM_SEM_ONE - credits_earned_so_far` (an
integer that may be negative, hence the `Int` comparison). -/
def add_total_min_credits_req_for_graduation (L : Loader) (completed : List String)
    (x : String → Nat → Bool) (courses : List String) (sems : List Nat) : Prop :=
  ((courses.map fun c =>
      (sems.map fun s => L.credits c * (if x c s then 1 else 0)).sum).sum : Int) ≥
    (TOTAL_MIN_CREDITS_FOR_GRAD_FROM_SEM_ONE : Int) - (creditsEarnedSoFar L completed : Int)

/-- cpsat.py lines 597-603: a course is forbidden in any semester whose
derived year `(sem + 1) // 2` is below the course's offering year. -/
def add_year_level_course_unlock_constraint (L : Loader) (x : String → Nat → Bool)
    (courses : List String) (sems : List Nat) : Prop :=
  ∀ c ∈ courses, ∀ s ∈ sems, (s + 1) / 2 < L.yearOffered c → x c s = false

/-- cpsat.py lines 605-609. -/
def add_max_allowed_courses_per_semester (x : String → Nat → Bool)
    (courses : List String) (sems : List Nat) : Prop :=
  ∀ sem ∈ sems, semCourseCount x courses sem ≤ MAX_ALLOWED_COURSES_PER_SEM

/-- Method `add_hard_constraints` (cpsat.py lines 611-623): the conjunction of every
emitted hard constraint, over the eligible-course pool and candidate
semester range of one solve. -/
def add_hard_constraints (L : Loader) (st : Student) (x : String → Nat → Bool) : Prop :=
  let courses := eligibleCourses L st
  let sems := remainingSemesters st.currentSemester
  add_course_already_completed_constraint st.completed x courses sems ∧
  add_category_credit_requirement_constraint L st.completed x courses sems ∧
  add_course_can_be_taken_only_once_constraint x courses sems ∧
  add_min_max_credit_constraint L x courses sems ∧
  add_preq_check_constraint L st.completed x courses sems ∧
  add_project_constraint L x courses sems ∧
  add_slot_conflict_constraint L x courses sems ∧
  add_theory_lab_pairing_constraint L st.completed x courses sems ∧
  add_failed_courses_retake_constraint x st.failed courses sems ∧
  add_total_min_credits_req_for_graduation L st.completed x courses sems ∧
  add_year_level_course_unlock_constraint L x courses sems ∧
  add_max_allowed_courses_per_semester x courses sems

/-- Method `get_solution` (cpsat.py lines 850-858): the extracted plan maps each
candidate semester to the courses whose variable is true there (in
course-list order); semesters outside the candidate range hold no entry. -/
def get_solution (x : String → Nat → Bool) (courses : List String)
    (sems : List Nat) : Nat → List String :=
  fun sem => if sem ∈ sems then courses.filter (fun c => x c sem) else []

/-! ## Solver adapter (cpsat.py lines 216-234)

The CP-SAT solver is external; it is modelled as an oracle receiving the
configured parameters and the full model content (loader, student, profile
weights and per-course interest weights — the inputs that determine the
variables, hard constraints and objective), and returning `some` assignment
on a successful solve, `none` otherwise. -/

inductive SearchBranching where
  | automaticSearch
  | fixedSearch
deriving DecidableEq

structure SolverParams where
  maxTimeInSeconds : Nat
  randomSeed : Nat
  numSearchWorkers : Nat
  interleaveSearch : Bool
  shareObjectiveBounds : Bool
  shareLevelZeroBounds : Bool
  searchBranching : SearchBranching
  linearizationLevel : Nat
deriving DecidableEq

/-- The parameter assignments of cpsat.py lines 217-228. -/
def cpSolverParams : SolverParams where
  maxTimeInSeconds := 10
  randomSeed := 42
  numSearchWorkers := 1
  interleaveSearch := false
  shareObjectiveBounds := false
  shareLevelZeroBounds := false
  searchBranching := SearchBranching.fixedSearch
  linearizationLevel := 2

/-- The five profile weights of a `PLAN_CONFIGS` entry (cpsat.py
lines 22-46). -/
structure ProfileWeights where
  mandatory : Nat
  unlock : Nat
  interest : Nat
  workload : Nat
  failed : Nat
deriving DecidableEq

/-- All inputs of one `generate_single_plan` call: catalog and student data,
the per-course interest weights (already scaled to integers as in
`set_objective`), and the active profile's weight vector. -/
structure PlanInputs where
  loader : Loader
  student : Student
  interestWeights : String → Nat
  weights : ProfileWeights

/-- A solver oracle: the deterministic CP-SAT search as a function of the
configured parameters and the model content. -/
def SolverOracle : Type :=
  SolverParams → PlanInputs → Option (String → Nat → Bool)

/-- An oracle is sound when every assignment it reports satisfies all the
hard constraints compiled into the model it was given. -/
def SoundOracle (oracle : SolverOracle) : Prop :=
  ∀ p inp x, oracle p inp = some x →
    add_hard_constraints inp.loader inp.student x

/-- Method `generate_single_plan` (cpsat.py lines 101-284): build the model, solve
with the fixed deterministic parameters, and on success extract the plan via
`get_solution`; with no solution, return the empty per-semester mapping. -/
def generate_single_plan (oracle : SolverOracle) (inp : PlanInputs) :
    Nat → List String :=
  let sems := remainingSemesters inp.student.currentSemester
  let courses := eligibleCourses inp.loader inp.student
  match oracle cpSolverParams inp with
  | some x => get_solution x courses sems
  | none => fun sem => if sem ∈ sems then [] else []

/-! ## Plan orchestrator (cpsat.py lines 352-419) -/

/-- The inclusion test of `generate_complete_plan` line 402:
`if plan and any(plan.values()) and explanation:` — the plan dict is truthy
iff the semester range is nonempty, `any(plan.values())` asks for at least
one non-empty semester, and the third conjunct requires the explanation
provider to have returned something. -/
def profileResultKept (plan : Nat → List String) (sems : List Nat)
    (explanationPresent : Bool) : Bool :=
  !sems.isEmpty && (sems.any fun s => !(plan s).isEmpty) && explanationPresent

/-- The orchestrator's aggregate result (cpsat.py lines 389-419), keyed by
profile name: given each profile's extracted plan and whether
`generate_plan_explanation` returned an explanation (`false` models the
`None` of a failed provider call), keep exactly the profiles passing the
line-402 test. -/
def generate_complete_plan_results (sems : List Nat)
    (outcomes : List (String × (Nat → List String) × Bool)) : List String :=
  (outcomes.filter fun o => profileResultKept o.2.1 sems o.2.2).map Prod.fst

/-! ## Infeasibility diagnoser (cpsat.py lines 1299-1351) -/

/-- The constraint groups the diagnoser's probe solves add. -/
inductive ConstraintGroup where
  | minMaxCredit
  | onlyOnce
  | failedRetake
  | prereqOrdering
  | categoryQuota
  | graduationFloor
deriving DecidableEq

/-- Probe subset of check 1: credit bounds alone. -/
def diagSubset1 : List ConstraintGroup := [ConstraintGroup.minMaxCredit]

/-- Probe subset of check 2: adds the once-only and failed-retake groups. -/
def diagSubset2 : List ConstraintGroup :=
  [ConstraintGroup.minMaxCredit, ConstraintGroup.onlyOnce, ConstraintGroup.failedRetake]

/-- Probe subset of check 3: adds prerequisite ordering. -/
def diagSubset3 : List ConstraintGroup := diagSubset2 ++ [ConstraintGroup.prereqOrdering]

/-- Probe subset of check 4: adds the category quotas. -/
def diagSubset4 : List ConstraintGroup := diagSubset3 ++ [ConstraintGroup.categoryQuota]

/-- Probe subset of check 5: adds the graduation credit floor. -/
def diagSubset5 : List ConstraintGroup := diagSubset4 ++ [ConstraintGroup.graduationFloor]

/-- The reason strings appended by `diagnose_infeasibility`; the failed-retake
reason carries the interpolated failed-course list. -/
inductive InfeasibilityReason where
  | creditMinimumUnreachable
  | failedRetakeBlocked (failed : List String)
  | prereqChainImpossible
  | categoryQuotaUnreachable
  | graduationCreditsUnreachable
  | slotOrLabPairingAttribution
deriving DecidableEq

/-- Method `diagnose_infeasibility` (cpsat.py lines 1299-1351): re-solve the five
growing constraint subsets in order with `quick_solve` (modelled by the probe
oracle `solve`), returning on the first subset that fails to solve; if all
five solve, attribute the infeasibility to the remaining rules (slot
conflicts, theory-lab pairing). -/
def diagnose_infeasibility (solve : List ConstraintGroup → Bool)
    (failed : List String) : List InfeasibilityReason :=
  if !solve diagSubset1 then [InfeasibilityReason.creditMinimumUnreachable]
  else if !solve diagSubset2 then [InfeasibilityReason.failedRetakeBlocked failed]
  else if !solve diagSubset3 then [InfeasibilityReason.prereqChainImpossible]
  else if !solve diagSubset4 then [InfeasibilityReason.categoryQuotaUnreachable]
  else if !solve diagSubset5 then [InfeasibilityReason.graduationCreditsUnreachable]
  else [InfeasibilityReason.slotOrLabPairingAttribution]

/-- The probe subsets paired with their reasons, in the diagnoser's fixed
order. -/
def diagSequence (failed : List String) :
    List (List ConstraintGroup × InfeasibilityReason) :=
  [(diagSubset1, InfeasibilityReason.creditMinimumUnreachable),
   (diagSubset2, InfeasibilityReason.failedRetakeBlocked failed),
   (diagSubset3, InfeasibilityReason.prereqChainImpossible),
   (diagSubset4, InfeasibilityReason.categoryQuotaUnreachable),
   (diagSubset5, InfeasibilityReason.graduationCreditsUnreachable)]

/-- The result claim C7 predicts: the reason of the first probe subset that
fails to solve, or the attribution to the unincluded rules when every probe
subset solves. -/
def firstFailingDiagnosis (solve : List ConstraintGroup → Bool)
    (failed : List String) : List InfeasibilityReason :=
  match (diagSequence failed).find? (fun p => !solve p.1) with
  | some p => [p.2]
  | none => [InfeasibilityReason.slotOrLabPairingAttribution]

/-! ## Helper lemmas about the embedding -/

theorem assignCount_eq_length_filter (x : String → Nat → Bool) (c : String)
    (sems : List Nat) :
    assignCount x c sems = (sems.filter fun s => x c s).length := by
  induction sems with
  | nil => rfl
  | cons s t ih =>
    by_cases h : x c s <;>
      simp [assignCount, List.filter_cons, h, List.map_cons, List.sum_cons] at ih ⊢ <;>
      omega

theorem two_le_length_of_mem_of_mem {α : Type} {a b : α} {l : List α}
    (ha : a ∈ l) (hb : b ∈ l) (hne : a ≠ b) : 2 ≤ l.length := by
  induction l with
  | nil => cases ha
  | cons c t ih =>
    rcases List.mem_cons.mp ha with rfl | ha'
    · rcases List.mem_cons.mp hb with rfl | hb'
      · exact absurd rfl hne
      · have := List.length_pos.mpr (List.ne_nil_of_mem hb')
        simp only [List.length_cons]
        omega
    · rcases List.mem_cons.mp hb with rfl | hb'
      · have := List.length_pos.mpr (List.ne_nil_of_mem ha')
        simp only [List.length_cons]
        omega
      · have := ih ha' hb'
        simp only [List.length_cons]
        omega

theorem exists_mem_of_one_le_assignCount {x : String → Nat → Bool} {c : String}
    {l : List Nat} (h : 1 ≤ assignCount x c l) : ∃ s ∈ l, x c s = true := by
  rw [assignCount_eq_length_filter] at h
  have hne : (l.filter fun s => x c s) ≠ [] := by
    intro hnil
    rw [hnil] at h
    exact absurd h (by simp)
  obtain ⟨s, hs⟩ := List.exists_mem_of_ne_nil _ hne
  have := List.mem_filter.mp hs
  exact ⟨s, this.1, this.2⟩

theorem mem_get_solution_iff {x : String → Nat → Bool} {courses : List String}
    {sems : List Nat} {c : String} {sem : Nat} :
    c ∈ get_solution x courses sems sem ↔
      sem ∈ sems ∧ c ∈ courses ∧ x c sem = true := by
  unfold get_solution
  by_cases h : sem ∈ sems <;> simp [h, List.mem_filter]

theorem sum_map_filter_eq_semCredits (L : Loader) (x : String → Nat → Bool)
    (courses : List String) (sem : Nat) :
    ((courses.filter fun c => x c sem).map L.credits).sum =
      semCredits L x courses sem := by
  induction courses with
  | nil => rfl
  | cons c t ih =>
    by_cases h : x c sem <;>
      simp [semCredits, List.filter_cons, h, List.map_cons, List.sum_cons] at ih ⊢ <;>
      omega

theorem length_filter_eq_semCourseCount (x : String → Nat → Bool)
    (courses : List String) (sem : Nat) :
    (courses.filter fun c => x c sem).length = semCourseCount x courses sem := by
  induction courses with
  | nil => rfl
  | cons c t ih =>
    by_cases h : x c sem <;>
      simp [semCourseCount, List.filter_cons, h, List.map_cons, List.sum_cons] at ih ⊢ <;>
      omega

theorem mem_pastSems_iff {sems : List Nat} {sem s : Nat} :
    s ∈ pastSems sems sem ↔ s ∈ sems ∧ s < sem := by
  unfold pastSems
  simp [List.mem_filter]

/-! ## Decidability of the compiled constraints

Every emitted constraint is a finite conjunction of decidable comparisons,
so satisfaction by a concrete assignment is checkable by evaluation. -/

instance (x : String → Nat → Bool) (courses : List String) (sems : List Nat) :
    Decidable (add_course_can_be_taken_only_once_constraint x courses sems) := by
  unfold add_course_can_be_taken_only_once_constraint
  infer_instance

instance (completed : List String) (x : String → Nat → Bool) (courses : List String)
    (sems : List Nat) :
    Decidable (add_course_already_completed_constraint completed x courses sems) := by
  unfold add_course_already_completed_constraint
  infer_instance

instance (L : Loader) (completed : List String) (x : String → Nat → Bool)
    (courses : List String) (sems : List Nat) :
    Decidable (add_preq_check_constraint L completed x courses sems) := by
  unfold add_preq_check_constraint
  infer_instance

instance (L : Loader) (x : String → Nat → Bool) (courses : List String)
    (sems : List Nat) :
    Decidable (add_slot_conflict_constraint L x courses sems) := by
  unfold add_slot_conflict_constraint
  infer_instance

instance (L : Loader) (completed : List String) (x : String → Nat → Bool)
    (courses : List String) (sems : List Nat) :
    Decidable (add_theory_lab_pairing_constraint L completed x courses sems) := by
  unfold add_theory_lab_pairing_constraint
  infer_instance

instance (L : Loader) (completed : List String) (x : String → Nat → Bool)
    (courses : List String) (sems : List Nat) :
    Decidable (add_category_credit_requirement_constraint L completed x courses sems) := by
  unfold add_category_credit_requirement_constraint
  infer_instance

instance (L : Loader) (x : String → Nat → Bool) (courses : List String)
    (sems : List Nat) :
    Decidable (add_project_constraint L x courses sems) := by
  unfold add_project_constraint
  infer_instance

instance (L : Loader) (st : Student) (x : String → Nat → Bool) :
    Decidable (add_hard_constraints L st x) := by
  unfold add_hard_constraints add_min_max_credit_constraint
    add_failed_courses_retake_constraint add_total_min_credits_req_for_graduation
    add_year_level_course_unlock_constraint add_max_allowed_courses_per_semester
  infer_instance

/-! ## A concrete model instance

A small catalog and student used as concrete input for the witnesses and for
the claim C1 counterexample.  The student is in semester 7, so the candidate
range is [7, 8]; courses "CA", "CB", "CC", "CD" (4 credits each, mutually
compatible slots) fill semester 7, and courses "DA", "DB" (8 credits each)
share leading slot letter "A", so `can_take_together "DA" "DB"` is false.
Course "CA" is a prerequisite of "DA", "DA" is a failed course to be retaken,
and course "Z1" (160 credits) is already completed, so the graduation floor
is met. -/

def exLoader : Loader where
  allCourses := ["CA", "CB", "CC", "CD", "DA", "DB", "Z1"]
  credits := fun c =>
    (([("CA", 4), ("CB", 4), ("CC", 4), ("CD", 4),
       ("DA", 8), ("DB", 8), ("Z1", 160)].lookup c).getD 0 : Nat)
  courseType := fun c => if c = "Z1" then "Core" else "Elective"
  prereqsOf := fun c => if c = "DA" then ["CA"] else []
  slotsOf := fun c =>
    (([("CA", ["B1"]), ("CB", ["C1"]), ("CC", ["D1"]), ("CD", ["E1"]),
       ("DA", ["A1"]), ("DB", ["A2"]), ("Z1", ["F1"])].lookup c).getD [])
  labOf := fun _ => none
  yearOffered := fun _ => 1
  creditRequirements := []

def exStudent : Student where
  completed := ["Z1"]
  failed := ["DA"]
  currentSemester := 7

/-- The assignment placing "CA".."CD" in semester 7 and "DA", "DB" in
semester 8. -/
def exAssignment : String → Nat → Bool := fun c s =>
  (["CA", "CB", "CC", "CD"].contains c && s == 7) ||
    (["DA", "DB"].contains c && s == 8)

theorem exAssignment_satisfies : add_hard_constraints exLoader exStudent exAssignment := by
  decide

/-! ## Claim C4: course uniqueness and failed-course retake -/

/-- Claim C4: for every plan extracted from a successful solve (an assignment
satisfying all compiled hard constraints), given that the student's failed
set is disjoint from the completed set, each course code appears in at most
one term, and each failed course appears in exactly one term of the
candidate range `[current_term, 8]`. -/
theorem plan_course_uniqueness_and_failed_retake (L : Loader) (st : Student)
    (x : String → Nat → Bool)
    (hdisj : ∀ c ∈ st.failed, c ∉ st.completed)
    (hsat : add_hard_constraints L st x) :
    (∀ c t t',
        c ∈ get_solution x (eligibleCourses L st) (remainingSemesters st.currentSemester) t →
        c ∈ get_solution x (eligibleCourses L st) (remainingSemesters st.currentSemester) t' →
        t = t') ∧
    (∀ c ∈ st.failed, ∃ t ∈ remainingSemesters st.currentSemester,
        c ∈ get_solution x (eligibleCourses L st) (remainingSemesters st.currentSemester) t ∧
        ∀ t', c ∈ get_solution x (eligibleCourses L st)
          (remainingSemesters st.currentSemester) t' → t' = t) := by
  obtain ⟨-, -, honce, -, -, -, -, -, hretake, -, -, -⟩ := hsat
  constructor
  · intro c t t' h1 h2
    rw [mem_get_solution_iff] at h1 h2
    obtain ⟨ht, hc, hx1⟩ := h1
    obtain ⟨ht', -, hx2⟩ := h2
    by_contra hne
    have hfil1 : t ∈ (remainingSemesters st.currentSemester).filter (fun s => x c s) :=
      List.mem_filter.mpr ⟨ht, hx1⟩
    have hfil2 : t' ∈ (remainingSemesters st.currentSemester).filter (fun s => x c s) :=
      List.mem_filter.mpr ⟨ht', hx2⟩
    have h2le := two_le_length_of_mem_of_mem hfil1 hfil2 hne
    have hle1 := honce c hc
    rw [assignCount_eq_length_filter] at hle1
    omega
  · intro c hc
    obtain ⟨hcelig, hcount⟩ := hretake c hc
    rw [assignCount_eq_length_filter] at hcount
    obtain ⟨t0, ht0⟩ := List.length_eq_one.mp hcount
    have ht0mem : t0 ∈ (remainingSemesters st.currentSemester).filter (fun s => x c s) := by
      rw [ht0]
      exact List.mem_singleton_self t0
    have ht0' := List.mem_filter.mp ht0mem
    refine ⟨t0, ht0'.1, mem_get_solution_iff.mpr ⟨ht0'.1, hcelig, ht0'.2⟩, ?_⟩
    intro t' h'
    rw [mem_get_solution_iff] at h'
    have hmem : t' ∈ (remainingSemesters st.currentSemester).filter (fun s => x c s) :=
      List.mem_filter.mpr ⟨h'.1, h'.2.2⟩
    rw [ht0] at hmem
    exact List.mem_singleton.mp hmem

/-- Witness for claim C4 at the concrete instance: the failed course "DA"
appears in exactly one term of the extracted plan. -/
theorem plan_course_uniqueness_and_failed_retake_witness :
    ∃ t ∈ remainingSemesters exStudent.currentSemester,
      "DA" ∈ get_solution exAssignment (eligibleCourses exLoader exStudent)
        (remainingSemesters exStudent.currentSemester) t ∧
      ∀ t', "DA" ∈ get_solution exAssignment (eligibleCourses exLoader exStudent)
        (remainingSemesters exStudent.currentSemester) t' → t' = t :=
  (plan_course_uniqueness_and_failed_retake exLoader exStudent exAssignment
    (by decide) (by decide)).2 "DA" (by decide)

/-! ## Claim C5: per-term credit bounds and course cap -/

/-- Claim C5: for every term of every generated plan, the summed credit
values of the courses assigned to that term lie within `[16, 25]`, and the
number of courses assigned to that term is at most 12. -/
theorem plan_credit_bounds_and_course_cap (L : Loader) (st : Student)
    (x : String → Nat → Bool) (hsat : add_hard_constraints L st x) :
    ∀ t ∈ remainingSemesters st.currentSemester,
      16 ≤ ((get_solution x (eligibleCourses L st)
          (remainingSemesters st.currentSemester) t).map L.credits).sum ∧
      ((get_solution x (eligibleCourses L st)
          (remainingSemesters st.currentSemester) t).map L.credits).sum ≤ 25 ∧
      (get_solution x (eligibleCourses L st)
          (remainingSemesters st.currentSemester) t).length ≤ 12 := by
  obtain ⟨-, -, -, hminmax, -, -, -, -, -, -, -, hcap⟩ := hsat
  intro t ht
  have hplan : get_solution x (eligibleCourses L st)
      (remainingSemesters st.currentSemester) t =
      (eligibleCourses L st).filter (fun c => x c t) := by
    unfold get_solution
    rw [if_pos ht]
  rw [hplan, sum_map_filter_eq_semCredits, length_filter_eq_semCourseCount]
  obtain ⟨h1, h2⟩ := hminmax t ht
  exact ⟨h1, h2, hcap t ht⟩

/-- Witness for claim C5 at the concrete instance, term 7. -/
theorem plan_credit_bounds_and_course_cap_witness :
    16 ≤ ((get_solution exAssignment (eligibleCourses exLoader exStudent)
        (remainingSemesters exStudent.currentSemester) 7).map exLoader.credits).sum ∧
    ((get_solution exAssignment (eligibleCourses exLoader exStudent)
        (remainingSemesters exStudent.currentSemester) 7).map exLoader.credits).sum ≤ 25 ∧
    (get_solution exAssignment (eligibleCourses exLoader exStudent)
        (remainingSemesters exStudent.currentSemester) 7).length ≤ 12 :=
  plan_credit_bounds_and_course_cap exLoader exStudent exAssignment
    (by decide) 7 (by decide)

/-! ## Claim C6: prerequisite ordering -/

/-- Claim C6: for every assigned (course, term) pair of a generated plan,
every prerequisite of that course is either in the student's completed set
or assigned to a strictly earlier term in the same plan. -/
theorem plan_prereq_ordering (L : Loader) (st : Student)
    (x : String → Nat → Bool) (hsat : add_hard_constraints L st x) :
    ∀ t c, c ∈ get_solution x (eligibleCourses L st)
        (remainingSemesters st.currentSemester) t →
      ∀ p ∈ L.prereqsOf c,
        p ∈ st.completed ∨
          ∃ t' ∈ remainingSemesters st.currentSemester, t' < t ∧
            p ∈ get_solution x (eligibleCourses L st)
              (remainingSemesters st.currentSemester) t' := by
  obtain ⟨-, -, -, -, hpreq, -, -, -, -, -, -, -⟩ := hsat
  intro t c hc p hp
  rw [mem_get_solution_iff] at hc
  obtain ⟨ht, hcc, hxc⟩ := hc
  by_cases hpcomp : p ∈ st.completed
  · exact Or.inl hpcomp
  · right
    have h := hpreq c hcc t ht p hp hpcomp
    by_cases hpc : p ∈ eligibleCourses L st
    · rw [if_pos hpc] at h
      obtain ⟨hemp, hstep⟩ := h
      by_cases hpast : pastSems (remainingSemesters st.currentSemester) t = []
      · have hfalse := hemp hpast
        rw [hfalse] at hxc
        exact absurd hxc Bool.false_ne_true
      · have hle := hstep hpast
        simp only [hxc, if_pos] at hle
        obtain ⟨s, hs, hxs⟩ := exists_mem_of_one_le_assignCount hle
        rw [mem_pastSems_iff] at hs
        exact ⟨s, hs.1, hs.2, mem_get_solution_iff.mpr ⟨hs.1, hpc, hxs⟩⟩
    · rw [if_neg hpc] at h
      exact h.elim

/-- Witness for claim C6 at the concrete instance: course "DA" sits in term
8 and its prerequisite "CA" is assigned to a strictly earlier term. -/
theorem plan_prereq_ordering_witness :
    "CA" ∈ exStudent.completed ∨
      ∃ t' ∈ remainingSemesters exStudent.currentSemester, t' < 8 ∧
        "CA" ∈ get_solution exAssignment (eligibleCourses exLoader exStudent)
          (remainingSemesters exStudent.currentSemester) t' :=
  plan_prereq_ordering exLoader exStudent exAssignment (by decide)
    8 "DA" (by decide) "CA" (by decide)

/-! ## Claim C1: slot-conflict mutual exclusion -/

/-- The 'balanced' profile's weight vector (cpsat.py lines 23-33). -/
def balancedWeights : ProfileWeights where
  mandatory := 100
  unlock := 30
  interest := 30
  workload := 60
  failed := 200

/-- A full set of inputs for one `generate_single_plan` call, built from the
concrete instance; the interest weights put every course at the scaled
neutral default `int(0.5 * 100)`. -/
def exInputs : PlanInputs where
  loader := exLoader
  student := exStudent
  interestWeights := fun _ => 50
  weights := balancedWeights

/-- A solver oracle that returns `exAssignment` — by
`exAssignment_satisfies` a genuine satisfying assignment of this model, so a
solution CP-SAT could legitimately report for these inputs. -/
def exOracle : SolverOracle := fun _ _ => some exAssignment

/-- Claim C1, counterexample: the emitted constraints are all satisfied by
`exAssignment`, yet the plan `generate_single_plan` extracts from it places
"DA" and "DB" — two courses with no mutually compatible time-slot
combination — together in term 8, a term of the candidate range other than
the first: the pairwise slot-conflict exclusion does not hold in every term
of the plan. -/
theorem slot_conflict_unenforced_beyond_first_term :
    add_hard_constraints exInputs.loader exInputs.student exAssignment ∧
    exOracle cpSolverParams exInputs = some exAssignment ∧
    generate_single_plan exOracle exInputs 8 = ["DA", "DB"] ∧
    can_take_together exInputs.loader.slotsOf "DA" "DB" = false ∧
    8 ∈ remainingSemesters exInputs.student.currentSemester ∧
    exInputs.student.currentSemester ≠ 8 :=
  ⟨by decide, rfl, by decide, by decide, by decide, by decide⟩

/-- Claim C1 (amended): the pairwise slot-conflict mutual exclusion is
enforced only for the first term of the candidate range — the
`add_slot_conflict_constraint` loop breaks after its first iteration — so in
every plan extracted from a satisfying assignment, any two distinct courses
assigned to the FIRST candidate term have a mutually compatible time-slot
combination; later terms carry no such constraint. -/
theorem plan_first_term_slot_exclusion (L : Loader) (st : Student)
    (x : String → Nat → Bool) (hsat : add_hard_constraints L st x)
    (hcur : st.currentSemester ≤ 8) :
    ∀ c1 c2, c1 ≠ c2 →
      c1 ∈ get_solution x (eligibleCourses L st)
        (remainingSemesters st.currentSemester) st.currentSemester →
      c2 ∈ get_solution x (eligibleCourses L st)
        (remainingSemesters st.currentSemester) st.currentSemester →
      can_take_together L.slotsOf c1 c2 = true := by
  obtain ⟨-, -, -, -, -, -, hslot, -, -, -, -, -⟩ := hsat
  intro c1 c2 hne h1 h2
  rw [mem_get_solution_iff] at h1 h2
  have htake : (remainingSemesters st.currentSemester).take 1 = [st.currentSemester] := by
    unfold remainingSemesters
    have h9 : 9 - st.currentSemester = (8 - st.currentSemester) + 1 := by omega
    rw [h9]
    rfl
  have hpw := hslot st.currentSemester (by rw [htake]; exact List.mem_singleton_self _)
  have hsymm : Symmetric (fun c1 c2 : String =>
      can_take_together L.slotsOf c1 c2 = false →
        (if x c1 st.currentSemester then 1 else 0) +
          (if x c2 st.currentSemester then 1 else 0) ≤ 1) := by
    intro a b hab hba
    rw [can_take_together_symm] at hba
    have := hab hba
    omega
  have hR := hpw.forall hsymm h1.2.1 h2.2.1 hne
  by_contra hcompat
  rw [Bool.not_eq_true] at hcompat
  have hle := hR hcompat
  rw [h1.2.2, h2.2.2] at hle
  simp at hle

/-- Witness for the amended claim C1: "CA" and "CB" share the first term of
the concrete plan and are indeed slot-compatible. -/
theorem plan_first_term_slot_exclusion_witness :
    can_take_together exLoader.slotsOf "CA" "CB" = true :=
  plan_first_term_slot_exclusion exLoader exStudent exAssignment (by decide) (by decide)
    "CA" "CB" (by decide) (by decide) (by decide)

/-! ## Claim C2: category quota integrity reports -/

/-- The data-integrity reports produced during one `generate_single_plan`
call: `add_hard_constraints` — and within it
`add_category_credit_requirement_constraint`, which prints the report naming
each unmeetable category — runs strictly before `solver.Solve` (cpsat.py
line 106 versus line 234), and the reports are a pure function of the
inputs, taking no solver oracle at all. -/
def generate_single_plan_reports (inp : PlanInputs) : List String :=
  categoryIntegrityReports inp.loader inp.student.completed
    (eligibleCourses inp.loader inp.student)

/-- Claim C2: if a category's credit quota is not already met by completed
credits and zero eligible courses of that category remain, the constraint
compiler reports the problem, naming that category, at constraint-compile
time — the report is part of `generate_single_plan_reports`, a pure function
of the inputs evaluated before any solver call. -/
theorem category_integrity_reported_before_solve (inp : PlanInputs)
    (cat : String) (req : Nat)
    (hmem : (cat, req) ∈ inp.loader.creditRequirements)
    (hunmet : earnedByCategory inp.loader inp.student.completed cat < req)
    (hempty : categoryCourses inp.loader
      (eligibleCourses inp.loader inp.student) cat = []) :
    cat ∈ generate_single_plan_reports inp := by
  unfold generate_single_plan_reports categoryIntegrityReports
  rw [List.mem_map]
  refine ⟨(cat, req), ?_, rfl⟩
  rw [List.mem_filter]
  refine ⟨hmem, ?_⟩
  simp only [decide_eq_true_eq, Bool.and_eq_true]
  exact ⟨hunmet, hempty⟩

/-- A catalog with a 30-credit "Theory" quota but no eligible "Theory"
course, for the claim C2 witness. -/
def quotaLoader : Loader where
  allCourses := ["E1"]
  credits := fun _ => 3
  courseType := fun _ => "Elective"
  prereqsOf := fun _ => []
  slotsOf := fun _ => ["A1"]
  labOf := fun _ => none
  yearOffered := fun _ => 1
  creditRequirements := [("Theory", 30)]

def quotaStudent : Student where
  completed := []
  failed := []
  currentSemester := 7

def quotaInputs : PlanInputs where
  loader := quotaLoader
  student := quotaStudent
  interestWeights := fun _ => 50
  weights := balancedWeights

/-- Witness for claim C2: the unmeetable "Theory" quota is reported by name
at compile time. -/
theorem category_integrity_reported_before_solve_witness :
    "Theory" ∈ generate_single_plan_reports quotaInputs :=
  category_integrity_reported_before_solve quotaInputs "Theory" 30
    (by decide) (by decide) (by decide)

/-! ## Claim C3: explanation absence drops the plan -/

/-- Claim C3 fails on the code (a code bug): the inclusion test at
cpsat.py line 402, `if plan and any(plan.values()) and explanation:`,
requires the explanation to be present, so a profile whose solve succeeded
(here `generate_single_plan` returns a plan with a non-empty term 7) is
dropped from the orchestrator's aggregate result whenever
`generate_plan_explanation` returns `None` — explanation absence does not
degrade gracefully. -/
theorem explanation_absence_drops_plan :
    (∀ (plan : Nat → List String) (sems : List Nat),
        profileResultKept plan sems false = false) ∧
    generate_single_plan exOracle exInputs 7 ≠ [] ∧
    generate_complete_plan_results
      (remainingSemesters exInputs.student.currentSemester)
      [("balanced", generate_single_plan exOracle exInputs, false)] = [] := by
  refine ⟨?_, by decide, by decide⟩
  intro plan sems
  unfold profileResultKept
  rw [Bool.and_false]

/-! ## Claim C7: infeasibility diagnosis order -/

/-- Claim C7: `diagnose_infeasibility` probes a strictly growing sequence of
constraint subsets in the fixed order — credit bounds alone, then adding the
failed-course retake (together with the once-only rule), then prerequisite
ordering, then category quotas, then the graduation floor — and returns
exactly one reason: the reason of the first subset that fails to solve, or,
when all five probe subsets solve, the attribution to the remaining
unincluded rules (slot conflicts, theory-lab pairing). -/
theorem diagnose_infeasibility_first_failing :
    (∀ (solve : List ConstraintGroup → Bool) (failed : List String),
        diagnose_infeasibility solve failed = firstFailingDiagnosis solve failed ∧
        (diagnose_infeasibility solve failed).length = 1) ∧
    diagSubset1.Sublist diagSubset2 ∧ diagSubset1 ≠ diagSubset2 ∧
    diagSubset2.Sublist diagSubset3 ∧ diagSubset2 ≠ diagSubset3 ∧
    diagSubset3.Sublist diagSubset4 ∧ diagSubset3 ≠ diagSubset4 ∧
    diagSubset4.Sublist diagSubset5 ∧ diagSubset4 ≠ diagSubset5 := by
  refine ⟨?_, ?_, by decide, ?_, by decide, ?_, by decide, ?_, by decide⟩
  · intro solve failed
    unfold diagnose_infeasibility firstFailingDiagnosis diagSequence
    cases h1 : solve diagSubset1 <;> cases h2 : solve diagSubset2 <;>
      cases h3 : solve diagSubset3 <;> cases h4 : solve diagSubset4 <;>
      cases h5 : solve diagSubset5 <;>
      simp [h1, h2, h3, h4, h5, List.find?]
  · exact List.Sublist.cons₂ _ (List.nil_sublist _)
  · exact List.sublist_append_left _ _
  · exact List.sublist_append_left _ _
  · exact List.sublist_append_left _ _

/-! ## Claim C8: deterministic solve -/

/-- Claim C8: the solve is deterministic.  The solver parameters configured
by `generate_single_plan` are exactly the determinism checklist of the claim
— fixed seed 42, a single search worker, interleaved/parallel search
disabled, fixed branching — and, the external CP-SAT search being a function
of the parameters and the model content (the oracle), two runs of
`generate_single_plan` over identical inputs (catalog, student state,
interest-weight mapping and weighting profile) produce identical plans. -/
theorem generate_single_plan_deterministic :
    cpSolverParams.randomSeed = 42 ∧
    cpSolverParams.numSearchWorkers = 1 ∧
    cpSolverParams.interleaveSearch = false ∧
    cpSolverParams.searchBranching = SearchBranching.fixedSearch ∧
    ∀ (oracle : SolverOracle) (inp1 inp2 : PlanInputs), inp1 = inp2 →
      generate_single_plan oracle inp1 = generate_single_plan oracle inp2 := by
  refine ⟨rfl, rfl, rfl, rfl, ?_⟩
  intro oracle inp1 inp2 h
  rw [h]

/-- Witness for claim C8 at the concrete inputs. -/
theorem generate_single_plan_deterministic_witness :
    generate_single_plan exOracle exInputs = generate_single_plan exOracle exInputs :=
  generate_single_plan_deterministic.2.2.2.2 exOracle exInputs exInputs rfl

/-! ## Claim C9: capstone pinning -/

/-- Claim C9: whenever terms 7 and 8 lie in the candidate range and the
three designated capstone courses are in the variable universe with category
"Projects and Internship", the compiled constraints force `BCSE497J` into
term 7 and forbid it in every other candidate term, force `BCSE498J` and
`BCSE499J` into term 8 and forbid them elsewhere, and forbid every other
course of the category from any term before term 7. -/
theorem project_capstone_pinning (L : Loader) (x : String → Nat → Bool)
    (courses : List String) (sems : List Nat)
    (hsat : add_project_constraint L x courses sems)
    (h7 : 7 ∈ sems) (h8 : 8 ∈ sems)
    (h497 : "BCSE497J" ∈ courses)
    (h497t : L.courseType "BCSE497J" = "Projects and Internship")
    (h498 : "BCSE498J" ∈ courses)
    (h498t : L.courseType "BCSE498J" = "Projects and Internship")
    (h499 : "BCSE499J" ∈ courses)
    (h499t : L.courseType "BCSE499J" = "Projects and Internship") :
    (x "BCSE497J" 7 = true ∧ ∀ s ∈ sems, s ≠ 7 → x "BCSE497J" s = false) ∧
    (x "BCSE498J" 8 = true ∧ ∀ s ∈ sems, s ≠ 8 → x "BCSE498J" s = false) ∧
    (x "BCSE499J" 8 = true ∧ ∀ s ∈ sems, s ≠ 8 → x "BCSE499J" s = false) ∧
    (∀ c ∈ courses, L.courseType c = "Projects and Internship" →
      c ≠ "BCSE497J" → c ≠ "BCSE498J" → c ≠ "BCSE499J" →
      ∀ s ∈ sems, s < 7 → x c s = false) := by
  have hm497 : "BCSE497J" ∈ courses.filter
      (fun c => L.courseType c == "Projects and Internship") :=
    List.mem_filter.mpr ⟨h497, by simp [h497t]⟩
  have hm498 : "BCSE498J" ∈ courses.filter
      (fun c => L.courseType c == "Projects and Internship") :=
    List.mem_filter.mpr ⟨h498, by simp [h498t]⟩
  have hm499 : "BCSE499J" ∈ courses.filter
      (fun c => L.courseType c == "Projects and Internship") :=
    List.mem_filter.mpr ⟨h499, by simp [h499t]⟩
  refine ⟨⟨?_, ?_⟩, ⟨?_, ?_⟩, ⟨?_, ?_⟩, ?_⟩
  · have h := hsat "BCSE497J" hm497 7 h7
    rw [if_pos rfl] at h
    rw [if_pos rfl] at h
    exact h
  · intro s hs hne
    have h := hsat "BCSE497J" hm497 s hs
    rw [if_pos rfl] at h
    rw [if_neg hne] at h
    exact h
  · have h := hsat "BCSE498J" hm498 8 h8
    rw [if_neg (by decide)] at h
    rw [if_pos (Or.inl rfl)] at h
    rw [if_pos rfl] at h
    exact h
  · intro s hs hne
    have h := hsat "BCSE498J" hm498 s hs
    rw [if_neg (by decide)] at h
    rw [if_pos (Or.inl rfl)] at h
    rw [if_neg hne] at h
    exact h
  · have h := hsat "BCSE499J" hm499 8 h8
    rw [if_neg (by decide)] at h
    rw [if_pos (Or.inr rfl)] at h
    rw [if_pos rfl] at h
    exact h
  · intro s hs hne
    have h := hsat "BCSE499J" hm499 s hs
    rw [if_neg (by decide)] at h
    rw [if_pos (Or.inr rfl)] at h
    rw [if_neg hne] at h
    exact h
  · intro c hc hct hne1 hne2 hne3 s hs hlt
    have hmc : c ∈ courses.filter
        (fun c => L.courseType c == "Projects and Internship") :=
      List.mem_filter.mpr ⟨hc, by simp [hct]⟩
    have h := hsat c hmc s hs
    rw [if_neg hne1] at h
    rw [if_neg (by rintro (h' | h') <;> [exact hne2 h'; exact hne3 h'])] at h
    exact h hlt

/-- A catalog in which every course carries the capstone category, for the
claim C9 witness. -/
def capstoneLoader : Loader where
  allCourses := ["BCSE497J", "BCSE498J", "BCSE499J", "PX"]
  credits := fun _ => 4
  courseType := fun _ => "Projects and Internship"
  prereqsOf := fun _ => []
  slotsOf := fun _ => ["A1"]
  labOf := fun _ => none
  yearOffered := fun _ => 1
  creditRequirements := []

/-- An assignment obeying the capstone pinning over semesters `[7, 8]`. -/
def capstoneAssignment : String → Nat → Bool := fun c s =>
  (c == "BCSE497J" && s == 7) || ((c == "BCSE498J" || c == "BCSE499J") && s == 8)

/-- Witness for claim C9 at the concrete capstone instance. -/
theorem project_capstone_pinning_witness :
    capstoneAssignment "BCSE497J" 7 = true ∧
    ∀ s ∈ [7, 8], s ≠ 7 → capstoneAssignment "BCSE497J" s = false :=
  (project_capstone_pinning capstoneLoader capstoneAssignment
    ["BCSE497J", "BCSE498J", "BCSE499J", "PX"] [7, 8]
    (by decide) (by decide) (by decide) (by decide) rfl
    (by decide) rfl (by decide) rfl).1

/-- Witness for the amended claim C10 at a concrete slot table: a course
with an empty slot set is incompatible with every other course. -/
theorem can_take_together_characterization_witness :
    can_take_together (fun _ => ([] : List String)) "P" "Q" = false :=
  (can_take_together_characterization (fun _ => ([] : List String)) "P" "Q").2 rfl "Q"
